import Mathlib

/-!
Shallow embedding of the crypto-trading-bot core (strategy signal layer and
the backtesting engine) over exact rational arithmetic.  JavaScript `number`
values (prices, volumes, balances, confidences, timestamps in milliseconds)
are modelled as `ℚ`; candle counts and periods as `ℕ`.  JS `Date` objects are
modelled by their millisecond value.  `Math.sqrt`, which has no exact rational
counterpart, is modelled by a computable rational approximation `ratSqrt`;
the theorems below depend only on its nonnegativity.
-/

namespace CryptoBot

/-- Signal type: the string union "BUY" | "SELL" | "HOLD" of the source. -/
inductive SigType where
  | BUY
  | SELL
  | HOLD
  deriving DecidableEq, Repr

/-- `Candle` from src/strategies/Strategy.ts.  The `open` field is renamed
`openP` because `open` is a Lean keyword. -/
structure Candle where
  timestamp : ℚ
  openP : ℚ
  high : ℚ
  low : ℚ
  close : ℚ
  volume : ℚ
  deriving DecidableEq, Repr

/-- `Signal` from src/strategies/Strategy.ts.  The optional `metadata`
mapping (purely informational strings in the source) is not modelled. -/
structure Signal where
  type : SigType
  price : ℚ
  timestamp : ℚ
  confidence : ℚ
  deriving DecidableEq, Repr

/-- Placeholder candle used to totalise `candles[candles.length - 1]`;
every strategy is only ever called on non-empty windows. -/
def defaultCandle : Candle := ⟨0, 0, 0, 0, 0, 0⟩

/-- `candles[candles.length - 1]`: the last candle of a non-empty window. -/
def lastD (l : List Candle) : Candle := l.getLastD defaultCandle

/-- JS `arr.slice(-p)` (the trailing `p` elements); `slice(-0)` is the whole
array in JS, hence the special case. -/
def sliceLast (l : List α) (p : ℕ) : List α :=
  if p = 0 then l else l.drop (l.length - p)

/-- `candles[candles.length - 1 - k]`, totalised with `defaultCandle`. -/
def nthFromEnd (l : List Candle) (k : ℕ) : Candle :=
  l.reverse.getD k defaultCandle

/-- Sum of the `close` fields of a candle list. -/
def sumCloses (l : List Candle) : ℚ := (l.map Candle.close).sum

/-- Sum of the `volume` fields of a candle list. -/
def sumVolumes (l : List Candle) : ℚ := (l.map Candle.volume).sum

/-- JS `Math.sign`, on rationals. -/
def qsign (q : ℚ) : Int :=
  if q > 0 then 1 else if q < 0 then -1 else 0

/-- Computable stand-in for `Math.sqrt` on nonnegative rationals (an
under-approximating rational square root).  No theorem in this file depends
on more than `0 ≤ ratSqrt q`. -/
def ratSqrt (q : ℚ) : ℚ :=
  (Nat.sqrt (q.num.toNat * q.den) : ℚ) / (q.den : ℚ)

/-- Consecutive close-to-close differences `candles[i].close -
candles[i-1].close` for `i = 1 .. length-1` (the `changes` array of
`calculateRSI`). -/
def priceChanges : List Candle → List ℚ
  | [] => []
  | [_] => []
  | a :: b :: rest => (b.close - a.close) :: priceChanges (b :: rest)

/-- Total gains of a change list: positive changes summed. -/
def gainsOf (changes : List ℚ) : ℚ :=
  (changes.map (fun c => if c > 0 then c else 0)).sum

/-- Total losses of a change list: absolute values of non-positive changes
summed (the `else` branch of the source adds `Math.abs(change)`). -/
def lossesOf (changes : List ℚ) : ℚ :=
  (changes.map (fun c => if c > 0 then 0 else |c|)).sum

/-- `avgGain` of `calculateRSI`: gains over the trailing `period` changes,
divided by `period`. -/
def avgGain (candles : List Candle) (period : ℕ) : ℚ :=
  gainsOf (sliceLast (priceChanges candles) period) / (period : ℚ)

/-- `avgLoss` of `calculateRSI`: losses over the trailing `period` changes,
divided by `period`. -/
def avgLoss (candles : List Candle) (period : ℕ) : ℚ :=
  lossesOf (sliceLast (priceChanges candles) period) / (period : ℚ)

/-- `RSIStrategy.calculateRSI` (textually identical to
`RSI_MA_ComboStrategy.calculateRSI`): simple average-gain / average-loss RSI
over the trailing `period` deltas; returns 50 on short windows and 100 when
the average loss is zero. -/
def calculateRSI (candles : List Candle) (period : ℕ) : ℚ :=
  if candles.length < period + 1 then 50
  else if avgLoss candles period = 0 then 100
  else 100 - 100 / (1 + avgGain candles period / avgLoss candles period)

/-- `MovingAverageCrossover.calculateMA`: simple moving average of close
over the trailing `period` candles, with sentinel 0 on short windows. -/
def calculateMA (candles : List Candle) (period : ℕ) : ℚ :=
  if candles.length < period then 0
  else sumCloses (sliceLast candles period) / (period : ℚ)

/-- `RSI_MA_ComboStrategy.calculateMA`: same moving average but the short-
window sentinel is the last close instead of 0. -/
def comboCalculateMA (candles : List Candle) (period : ℕ) : ℚ :=
  if candles.length < period then (lastD candles).close
  else sumCloses (sliceLast candles period) / (period : ℚ)

/-- The HOLD signal built from a candle (confidence 0, price and timestamp
from the candle). -/
def holdSignal (c : Candle) : Signal :=
  { type := .HOLD, price := c.close, timestamp := c.timestamp, confidence := 0 }

/-- Parameters of `MovingAverageCrossover`. -/
structure MACParams where
  shortPeriod : ℕ
  longPeriod : ℕ
  deriving DecidableEq, Repr

/-- `MovingAverageCrossover.analyze`, as a pure function of the window and
the `lastSignal` latch; returns the signal and the updated latch. -/
def macAnalyze (p : MACParams) (last : SigType) (candles : List Candle) :
    Signal × SigType :=
  if candles.length < p.longPeriod then (holdSignal (lastD candles), last)
  else
    let shortMA := calculateMA candles p.shortPeriod
    let longMA := calculateMA candles p.longPeriod
    let prevCandles := candles.dropLast
    let prevShortMA := calculateMA prevCandles p.shortPeriod
    let prevLongMA := calculateMA prevCandles p.longPeriod
    let current := lastD candles
    let currentSpread := (shortMA - longMA) / longMA
    if prevShortMA ≤ prevLongMA ∧ shortMA > longMA ∧ last ≠ .BUY then
      ({ type := .BUY, price := current.close, timestamp := current.timestamp,
         confidence := max 0.5 (min 0.9 (|currentSpread| * 50)) }, .BUY)
    else if prevShortMA ≥ prevLongMA ∧ shortMA < longMA ∧ last ≠ .SELL then
      ({ type := .SELL, price := current.close, timestamp := current.timestamp,
         confidence := max 0.5 (min 0.9 (|currentSpread| * 50)) }, .SELL)
    else (holdSignal current, last)

/-- Parameters of `RSIStrategy`. -/
structure RSIParams where
  period : ℕ
  oversoldThreshold : ℚ
  overboughtThreshold : ℚ
  deriving DecidableEq, Repr

/-- `RSIStrategy.analyze`, as a pure function of the window and the
`lastSignal` latch. -/
def rsiAnalyze (p : RSIParams) (last : SigType) (candles : List Candle) :
    Signal × SigType :=
  if candles.length < p.period + 1 then (holdSignal (lastD candles), last)
  else
    let rsi := calculateRSI candles p.period
    let prevRSI := calculateRSI candles.dropLast p.period
    let current := lastD candles
    if prevRSI ≤ p.oversoldThreshold ∧ rsi > p.oversoldThreshold ∧ last ≠ .BUY then
      ({ type := .BUY, price := current.close, timestamp := current.timestamp,
         confidence := min 0.9 ((p.oversoldThreshold - min prevRSI 20) / 20) }, .BUY)
    else if prevRSI ≥ p.overboughtThreshold ∧ rsi < p.overboughtThreshold ∧ last ≠ .SELL then
      ({ type := .SELL, price := current.close, timestamp := current.timestamp,
         confidence := min 0.9 ((max prevRSI 80 - p.overboughtThreshold) / 20) }, .SELL)
    else (holdSignal current, last)

/-- Parameters of `BollingerBandsStrategy`. -/
structure BBParams where
  period : ℕ
  standardDeviations : ℚ
  deriving DecidableEq, Repr

/-- `BollingerBandsStrategy.calculateBollingerBands`: middle = SMA of close,
bands = middle ± standardDeviations × population standard deviation.
Returns (upperBand, lowerBand, middleBand). -/
def calculateBollingerBands (p : BBParams) (candles : List Candle) :
    ℚ × ℚ × ℚ :=
  let recent := sliceLast candles p.period
  let middleBand := sumCloses recent / (p.period : ℚ)
  let variance :=
    ((recent.map (fun c => (c.close - middleBand) ^ 2)).sum) / (p.period : ℚ)
  let sd := ratSqrt variance
  (middleBand + sd * p.standardDeviations,
   middleBand - sd * p.standardDeviations, middleBand)

/-- `BollingerBandsStrategy.analyze`, as a pure function of the window and
the `lastSignal` latch. -/
def bbAnalyze (p : BBParams) (last : SigType) (candles : List Candle) :
    Signal × SigType :=
  if candles.length < p.period then (holdSignal (lastD candles), last)
  else
    let bands := calculateBollingerBands p candles
    let upperBand := bands.1
    let lowerBand := bands.2.1
    let current := lastD candles
    let price := current.close
    if price ≤ lowerBand ∧ last ≠ .BUY then
      ({ type := .BUY, price := current.close, timestamp := current.timestamp,
         confidence := min 0.9 ((lowerBand - price) / lowerBand * 10) }, .BUY)
    else if price ≥ upperBand ∧ last ≠ .SELL then
      ({ type := .SELL, price := current.close, timestamp := current.timestamp,
         confidence := min 0.9 ((price - upperBand) / upperBand * 10) }, .SELL)
    else (holdSignal current, last)

/-- Parameters of `MACDStrategy`. -/
structure MACDParams where
  fastPeriod : ℕ
  slowPeriod : ℕ
  signalPeriod : ℕ
  deriving DecidableEq, Repr

/-- `MACDStrategy.calculateEMA`: seed the EMA with the close `period` candles
from the end, then apply the standard recurrence over the remaining candles;
short windows return the last close. -/
def calculateEMA (candles : List Candle) (period : ℕ) : ℚ :=
  if candles.length < period then (lastD candles).close
  else
    let multiplier : ℚ := 2 / ((period : ℚ) + 1)
    match sliceLast candles period with
    | [] => (lastD candles).close
    | h :: t =>
      t.foldl (fun ema c => c.close * multiplier + ema * (1 - multiplier)) h.close

/-- `MACDStrategy.calculateMACD`: MACD = fastEMA − slowEMA; the signal line is
the simple average of the last `signalPeriod` MACD values, each recomputed by
re-deriving both EMAs over the corresponding window prelude (`slice(0, i+1)`).
Returns `none` exactly when the source returns `null`. -/
def calculateMACD (p : MACDParams) (candles : List Candle) :
    Option (ℚ × ℚ × ℚ) :=
  if candles.length < p.slowPeriod + p.signalPeriod then none
  else
    let fastEMA := calculateEMA candles p.fastPeriod
    let slowEMA := calculateEMA candles p.slowPeriod
    let macd := fastEMA - slowEMA
    let macdValues :=
      ((List.range' (candles.length - p.signalPeriod) p.signalPeriod).filter
        (fun i => decide (p.slowPeriod ≤ i))).map
        (fun i =>
          calculateEMA (candles.take (i + 1)) p.fastPeriod -
            calculateEMA (candles.take (i + 1)) p.slowPeriod)
    let signalLine := macdValues.sum / (macdValues.length : ℚ)
    some (macd, signalLine, macd - signalLine)

/-- `MACDStrategy.analyze`, as a pure function of the window and the
`lastSignal` latch. -/
def macdAnalyze (p : MACDParams) (last : SigType) (candles : List Candle) :
    Signal × SigType :=
  if candles.length < p.slowPeriod + p.signalPeriod + 5 then
    (holdSignal (lastD candles), last)
  else
    let current := lastD candles
    match calculateMACD p candles, calculateMACD p candles.dropLast with
    | none, _ => (holdSignal current, last)
    | _, none => (holdSignal current, last)
    | some md, some pmd =>
      let macd := md.1
      let macdSignal := md.2.1
      let histogram := md.2.2
      let prevMACD := pmd.1
      let prevMACDSignal := pmd.2.1
      if prevMACD ≤ prevMACDSignal ∧ macd > macdSignal ∧ last ≠ .BUY then
        ({ type := .BUY, price := current.close, timestamp := current.timestamp,
           confidence :=
             if macd > 0 then 0.8 else if histogram > 0 then 0.6 else 0.4 },
         .BUY)
      else if prevMACD ≥ prevMACDSignal ∧ macd < macdSignal ∧ last ≠ .SELL then
        ({ type := .SELL, price := current.close, timestamp := current.timestamp,
           confidence :=
             if macd < 0 then 0.8 else if histogram < 0 then 0.6 else 0.4 },
         .SELL)
      else (holdSignal current, last)

/-- Parameters of `RSI_MA_ComboStrategy`. -/
structure ComboParams where
  rsiPeriod : ℕ
  rsiOversold : ℚ
  rsiOverbought : ℚ
  maShortPeriod : ℕ
  maLongPeriod : ℕ
  deriving DecidableEq, Repr

/-- `RSI_MA_ComboStrategy.analyze`, as a pure function of the window and the
`lastSignal` latch: a strict-priority ladder of three BUY tiers (0.9 / 0.7 /
0.5) followed by three mirrored SELL tiers. -/
def comboAnalyze (p : ComboParams) (last : SigType) (candles : List Candle) :
    Signal × SigType :=
  if candles.length < max p.rsiPeriod p.maLongPeriod + 5 then
    (holdSignal (lastD candles), last)
  else
    let current := lastD candles
    let rsi := calculateRSI candles p.rsiPeriod
    let prevRSI := calculateRSI candles.dropLast p.rsiPeriod
    let shortMA := comboCalculateMA candles p.maShortPeriod
    let longMA := comboCalculateMA candles p.maLongPeriod
    let prevShortMA := comboCalculateMA candles.dropLast p.maShortPeriod
    let prevLongMA := comboCalculateMA candles.dropLast p.maLongPeriod
    let trendStrength := |(shortMA - longMA) / longMA|
    let rsiOversoldRecovery := prevRSI ≤ p.rsiOversold ∧ rsi > p.rsiOversold
    let maUpCross := prevShortMA ≤ prevLongMA ∧ shortMA > longMA
    let strongBullishTrend := shortMA > longMA ∧ trendStrength > 0.001
    let rsiOverboughtDecline := prevRSI ≥ p.rsiOverbought ∧ rsi < p.rsiOverbought
    let maDownCross := prevShortMA ≥ prevLongMA ∧ shortMA < longMA
    let strongBearishTrend := shortMA < longMA ∧ trendStrength > 0.001
    if rsiOversoldRecovery ∧ maUpCross ∧ last ≠ .BUY then
      ({ type := .BUY, price := current.close, timestamp := current.timestamp,
         confidence := 0.9 }, .BUY)
    else if rsiOversoldRecovery ∧ strongBullishTrend ∧ last ≠ .BUY then
      ({ type := .BUY, price := current.close, timestamp := current.timestamp,
         confidence := 0.7 }, .BUY)
    else if maUpCross ∧ rsi < 60 ∧ last ≠ .BUY then
      ({ type := .BUY, price := current.close, timestamp := current.timestamp,
         confidence := 0.5 }, .BUY)
    else if rsiOverboughtDecline ∧ maDownCross ∧ last ≠ .SELL then
      ({ type := .SELL, price := current.close, timestamp := current.timestamp,
         confidence := 0.9 }, .SELL)
    else if rsiOverboughtDecline ∧ strongBearishTrend ∧ last ≠ .SELL then
      ({ type := .SELL, price := current.close, timestamp := current.timestamp,
         confidence := 0.7 }, .SELL)
    else if maDownCross ∧ rsi > 40 ∧ last ≠ .SELL then
      ({ type := .SELL, price := current.close, timestamp := current.timestamp,
         confidence := 0.5 }, .SELL)
    else (holdSignal current, last)

/-- Parameters of `ScalpingStrategy`.  `spreadThreshold` and `minVolatility`
are constructor parameters that `analyze` never reads (dead in the source as
well); they are kept for fidelity. -/
structure ScalpParams where
  spreadThreshold : ℚ
  volumeThreshold : ℚ
  quickProfitTarget : ℚ
  maxHoldTime : ℕ
  volatilityPeriod : ℕ
  minVolatility : ℚ
  deriving DecidableEq, Repr

/-- The key type of the scalping strategy's `positions` map. -/
inductive Side where
  | LONG
  | SHORT
  deriving DecidableEq, Repr

/-- One open scalping position: `{entry, timestamp, candles}` in the source. -/
structure ScalpPos where
  entry : ℚ
  timestamp : ℚ
  candles : ℕ
  deriving DecidableEq, Repr

/-- One entry of the scalping strategy's `recentTrades` ledger. -/
structure RTrade where
  timestamp : ℚ
  profit : ℚ
  deriving DecidableEq, Repr

/-- The scalping strategy's private mutable state: the `positions` Map
(modelled as an insertion-ordered association list, matching JS `Map`
iteration order) and the `recentTrades` ledger. -/
structure ScalpState where
  positions : List (Side × ScalpPos)
  recentTrades : List RTrade
  deriving DecidableEq, Repr

/-- JS `Map.set`: replace in place when the key exists, else append. -/
def mapSet (m : List (Side × ScalpPos)) (k : Side) (v : ScalpPos) :
    List (Side × ScalpPos) :=
  if m.any (fun e => decide (e.1 = k)) then
    m.map (fun e => if e.1 = k then (k, v) else e)
  else m ++ [(k, v)]

/-- JS `Map.delete`: drop the entry with the given key. -/
def mapDelete (m : List (Side × ScalpPos)) (k : Side) :
    List (Side × ScalpPos) :=
  m.filter (fun e => decide (e.1 ≠ k))

/-- `ScalpingStrategy.updatePositions`: increment `candles` on every open
position. -/
def updatePositions (m : List (Side × ScalpPos)) : List (Side × ScalpPos) :=
  m.map (fun e => (e.1, { e.2 with candles := e.2.candles + 1 }))

/-- `ScalpingStrategy.cleanOldTrades`: keep only trades strictly newer than
one hour (3600000 ms) before the current candle. -/
def cleanOldTrades (trades : List RTrade) (now : ℚ) : List RTrade :=
  trades.filter (fun t => decide (t.timestamp > now - 3600000))

/-- Direction values used by the scalping momentum / price-action helpers. -/
inductive Dir where
  | UP
  | DOWN
  | SIDEWAYS
  | NEUTRAL
  deriving DecidableEq, Repr

/-- `ScalpingStrategy.calculateMomentum`: count up/down moves over the last
3 candles; strength = |up − down| / 3. -/
def calculateMomentum (candles : List Candle) : ℚ × Dir :=
  let recent := sliceLast candles 3
  let chs := priceChanges recent
  let upMoves := (chs.filter (fun c => decide (c > 0))).length
  let downMoves := (chs.filter (fun c => decide (c < 0))).length
  let strength : ℚ := |(upMoves : ℚ) - (downMoves : ℚ)| / (recent.length : ℚ)
  let direction :=
    if upMoves > downMoves then Dir.UP
    else if downMoves > upMoves then Dir.DOWN
    else Dir.NEUTRAL
  (strength, direction)

/-- `ScalpingStrategy.analyzePriceAction`: immediate tick move of the last
candle against the previous close, with a sensitivity-boosted strength. -/
def analyzePriceAction (candles : List Candle) : Dir × ℚ :=
  let current := lastD candles
  let prev := nthFromEnd candles 1
  let instantChange := (current.close - prev.close) / prev.close
  let bodySize := |current.close - current.openP| / current.openP
  let strength := min 1 (|instantChange| * 2000 + bodySize * 100)
  if instantChange > 0.0001 then (Dir.UP, strength)
  else if instantChange < -0.0001 then (Dir.DOWN, strength)
  else (Dir.SIDEWAYS, 0)

/-- `ScalpingStrategy.calculateAverageVolume` (divides by the number of
candles actually taken, not by `period`). -/
def calculateAverageVolume (candles : List Candle) (period : ℕ) : ℚ :=
  let recent := sliceLast candles period
  sumVolumes recent / (recent.length : ℚ)

/-- `ScalpingStrategy.checkVolumeSpike`: current volume over the 20-candle
average reaches `volumeThreshold`. -/
def checkVolumeSpike (p : ScalpParams) (candles : List Candle) : Prop :=
  (lastD candles).volume / calculateAverageVolume candles 20 ≥ p.volumeThreshold

instance (p : ScalpParams) (candles : List Candle) :
    Decidable (checkVolumeSpike p candles) := by
  unfold checkVolumeSpike; infer_instance

/-- `ScalpingStrategy.getInstantScalpSignal`: enter on any tick move of more
than 0.03% that is either accelerating or volume-confirmed; opening the
position is a side effect returned with the signal. -/
def getInstantScalpSignal (positions : List (Side × ScalpPos))
    (candles : List Candle) : Signal × List (Side × ScalpPos) :=
  let current := lastD candles
  let prev := nthFromEnd candles 1
  let prev2 := nthFromEnd candles 2
  let instantChange := (current.close - prev.close) / prev.close
  let prevChange := (prev.close - prev2.close) / prev2.close
  let volumeBoost := current.volume > prev.volume * 1.1
  let significantMove := |instantChange| > 0.0003
  let accelerating :=
    qsign instantChange = qsign prevChange ∧ |instantChange| > |prevChange|
  if significantMove ∧ (accelerating ∨ volumeBoost) then
    let sigType := if instantChange > 0 then SigType.BUY else SigType.SELL
    let positionType := if instantChange > 0 then Side.LONG else Side.SHORT
    ({ type := sigType, price := current.close, timestamp := current.timestamp,
       confidence := 0.8 },
     mapSet positions positionType
       ⟨current.close, current.timestamp, 0⟩)
  else (holdSignal current, positions)

/-- The body of the `checkExitConditions` loop for a single open position:
the four exit rules in source order (quick profit 0.9, max-hold-while-losing
0.7, momentum reversal 0.8, stop loss 0.8); `none` when no rule fires. -/
def scalpExitFor (p : ScalpParams) (candles : List Candle)
    (positionType : Side) (pos : ScalpPos) : Option (Signal × ℚ) :=
  let current := lastD candles
  let priceChange := (current.close - pos.entry) / pos.entry * 100
  let isLong := positionType = Side.LONG
  let profit := if isLong then priceChange else -priceChange
  let exitType := if isLong then SigType.SELL else SigType.BUY
  let momentum := calculateMomentum candles
  let momentumReversed :=
    (isLong ∧ momentum.2 = Dir.DOWN) ∨ (¬isLong ∧ momentum.2 = Dir.UP)
  if profit ≥ p.quickProfitTarget * 0.5 then
    some ({ type := exitType, price := current.close,
            timestamp := current.timestamp, confidence := 0.9 }, profit)
  else if pos.candles ≥ p.maxHoldTime ∧ profit ≤ 0 then
    some ({ type := exitType, price := current.close,
            timestamp := current.timestamp, confidence := 0.7 }, profit)
  else if momentumReversed ∧ pos.candles ≥ 2 ∧ profit < p.quickProfitTarget * 0.5 then
    some ({ type := exitType, price := current.close,
            timestamp := current.timestamp, confidence := 0.8 }, profit)
  else if profit ≤ -p.quickProfitTarget * 2 then
    some ({ type := exitType, price := current.close,
            timestamp := current.timestamp, confidence := 0.8 }, profit)
  else none

/-- The `checkExitConditions` scan over the positions map in iteration
order: the first position with a firing exit rule is closed (deleted from
the map, its profit pushed to `recentTrades`) and its signal returned. -/
def scalpExitScan (p : ScalpParams) (candles : List Candle)
    (st : ScalpState) : List (Side × ScalpPos) → Signal × ScalpState
  | [] => (holdSignal (lastD candles), st)
  | (positionType, pos) :: rest =>
    match scalpExitFor p candles positionType pos with
    | some sp =>
      (sp.1,
       { positions := mapDelete st.positions positionType,
         recentTrades :=
           st.recentTrades ++ [⟨(lastD candles).timestamp, sp.2⟩] })
    | none => scalpExitScan p candles st rest

/-- `ScalpingStrategy.checkExitConditions`. -/
def checkExitConditions (p : ScalpParams) (st : ScalpState)
    (candles : List Candle) : Signal × ScalpState :=
  scalpExitScan p candles st st.positions

/-- `ScalpingStrategy.checkEntryConditions`: no entry while a position is
open; the instant micro-move detector has priority, then the coarser
price-action + momentum / volume-spike heuristic. -/
def checkEntryConditions (p : ScalpParams) (st : ScalpState)
    (candles : List Candle) : Signal × ScalpState :=
  let current := lastD candles
  if st.positions.length > 0 then (holdSignal current, st)
  else
    let instant := getInstantScalpSignal st.positions candles
    if instant.1.type ≠ SigType.HOLD then
      (instant.1, { st with positions := instant.2 })
    else
      let priceAction := analyzePriceAction candles
      let momentum := calculateMomentum candles
      let volumeSpike := checkVolumeSpike p candles
      if priceAction.1 = Dir.UP ∧ (volumeSpike ∨ momentum.1 > 0.2) then
        ({ type := .BUY, price := current.close,
           timestamp := current.timestamp, confidence := 0.7 },
         { st with positions :=
             (mapSet st.positions Side.LONG
               ⟨current.close, current.timestamp, 0⟩) })
      else if priceAction.1 = Dir.DOWN ∧ (volumeSpike ∨ momentum.1 > 0.2) then
        ({ type := .SELL, price := current.close,
           timestamp := current.timestamp, confidence := 0.7 },
         { st with positions :=
             (mapSet st.positions Side.SHORT
               ⟨current.close, current.timestamp, 0⟩) })
      else (holdSignal current, st)

/-- `ScalpingStrategy.analyze`: warm-up guard, then position aging and
ledger cleanup, then exit checks (which win over entries), then entries. -/
def scalpAnalyze (p : ScalpParams) (st : ScalpState) (candles : List Candle) :
    Signal × ScalpState :=
  if candles.length < p.volatilityPeriod + 5 then
    (holdSignal (lastD candles), st)
  else
    let current := lastD candles
    let st1 : ScalpState :=
      { positions := updatePositions st.positions,
        recentTrades := cleanOldTrades st.recentTrades current.timestamp }
    let exitResult := checkExitConditions p st1 candles
    if exitResult.1.type ≠ SigType.HOLD then exitResult
    else checkEntryConditions p st1 candles

/-- The closed set of the six strategy variants, each with its constructor
parameters. -/
inductive Strat where
  | mac (p : MACParams)
  | rsi (p : RSIParams)
  | bb (p : BBParams)
  | macd (p : MACDParams)
  | combo (p : ComboParams)
  | scalp (p : ScalpParams)
  deriving DecidableEq, Repr

/-- Unified per-instance mutable strategy state: the `lastSignal` latch of
the five latch strategies, plus the scalping strategy's positions map and
recent-trades ledger.  Each concrete strategy touches only its own fields. -/
structure StratState where
  lastSignal : SigType
  positions : List (Side × ScalpPos)
  recentTrades : List RTrade
  deriving DecidableEq, Repr

/-- The state of a freshly constructed strategy instance: `lastSignal`
initialised to HOLD, empty positions map and trade ledger. -/
def freshState : StratState := ⟨.HOLD, [], []⟩

/-- `Strategy.analyze` dispatch: one `analyze` call, returning the signal
and the instance's updated state. -/
def Strat.analyze : Strat → StratState → List Candle → Signal × StratState
  | .mac p, st, w =>
    let r := macAnalyze p st.lastSignal w
    (r.1, { st with lastSignal := r.2 })
  | .rsi p, st, w =>
    let r := rsiAnalyze p st.lastSignal w
    (r.1, { st with lastSignal := r.2 })
  | .bb p, st, w =>
    let r := bbAnalyze p st.lastSignal w
    (r.1, { st with lastSignal := r.2 })
  | .macd p, st, w =>
    let r := macdAnalyze p st.lastSignal w
    (r.1, { st with lastSignal := r.2 })
  | .combo p, st, w =>
    let r := comboAnalyze p st.lastSignal w
    (r.1, { st with lastSignal := r.2 })
  | .scalp p, st, w =>
    let r := scalpAnalyze p ⟨st.positions, st.recentTrades⟩ w
    (r.1, { st with positions := r.2.positions, recentTrades := r.2.recentTrades })

/-- Each strategy's minimum lookback: the length below which its warm-up
guard returns HOLD. -/
def minLookback : Strat → ℕ
  | .mac p => p.longPeriod
  | .rsi p => p.period + 1
  | .bb p => p.period
  | .macd p => p.slowPeriod + p.signalPeriod + 5
  | .combo p => max p.rsiPeriod p.maLongPeriod + 5
  | .scalp p => p.volatilityPeriod + 5

/-- The five strategies that own a `lastSignal` latch (all but scalping). -/
def Strat.usesLatch : Strat → Bool
  | .scalp _ => false
  | _ => true

/-- The trace of signals produced by feeding one strategy instance a
sequence of windows, threading its mutable state through the calls. -/
def runTraceWith (step : σ → List Candle → Signal × σ) :
    σ → List (List Candle) → List Signal
  | _, [] => []
  | st, w :: ws =>
    (step st w).1 :: runTraceWith step (step st w).2 ws

/-- `runTraceWith` specialised to a strategy variant. -/
def runTrace (s : Strat) (st : StratState) (ws : List (List Candle)) :
    List Signal :=
  runTraceWith s.analyze st ws

/-- The signal types of a trace with the HOLD signals removed. -/
def nonHoldTypes (sigs : List Signal) : List SigType :=
  (sigs.map Signal.type).filter (fun t => decide (t ≠ SigType.HOLD))

/-- `Trade` from src/backtesting/Backtester.ts (named `BTrade` to keep it
apart from the scalping strategy's internal trades). -/
structure BTrade where
  type : SigType
  price : ℚ
  timestamp : ℚ
  quantity : ℚ
  deriving DecidableEq, Repr

/-- The Backtester's simulated state: cash balance, crypto position, trade
ledger and high-water mark. -/
structure BState where
  currentBalance : ℚ
  position : ℚ
  trades : List BTrade
  maxBalance : ℚ
  deriving DecidableEq, Repr

/-- The Backtester's state right after `reset()`. -/
def resetState (initialBalance : ℚ) : BState :=
  ⟨initialBalance, 0, [], initialBalance⟩

/-- `Backtester.executeSignal`: BUY accepted only with cash balance above
100 and no position (invest 95% of balance, keep 5% cash, record the
trade); SELL accepted only with a positive position (liquidate entirely,
record the trade, raise the high-water mark); otherwise a silent no-op. -/
def executeSignal (sig : Signal) (st : BState) : BState :=
  if sig.type = SigType.BUY ∧ st.currentBalance > 100 ∧ st.position = 0 then
    let quantity := st.currentBalance * 0.95 / sig.price
    { currentBalance := st.currentBalance * 0.05,
      position := quantity,
      trades := st.trades ++ [⟨.BUY, sig.price, sig.timestamp, quantity⟩],
      maxBalance := st.maxBalance }
  else if sig.type = SigType.SELL ∧ st.position > 0 then
    let newBalance := st.currentBalance + st.position * sig.price
    { currentBalance := newBalance,
      position := 0,
      trades := st.trades ++ [⟨.SELL, sig.price, sig.timestamp, st.position⟩],
      maxBalance := max st.maxBalance newBalance }
  else st

/-- The Backtester's execution filter: a signal is executed iff it is not
HOLD and its confidence exceeds 0.1. -/
def shouldExecute (sig : Signal) : Bool :=
  decide (sig.type ≠ SigType.HOLD ∧ sig.confidence > 0.1)

/-- One iteration of the `backtest` loop at index `i`: feed the strategy
the window `candles.slice(0, i + 1)` and execute the signal when the filter
passes. -/
def btStep (step : σ → List Candle → Signal × σ) (candles : List Candle)
    (acc : σ × BState) (i : ℕ) : σ × BState :=
  let w := candles.take (i + 1)
  let r := step acc.1 w
  (r.2, if shouldExecute r.1 then executeSignal r.1 acc.2 else acc.2)

/-- The loop indices of `backtest`: `i` from the start index to the end of
the candle series. -/
def btIndices (start len : ℕ) : List ℕ := List.range' start (len - start)

/-- The post-loop forced liquidation: close any remaining position with a
SELL at the last candle's close, confidence 1. -/
def forceClose (candles : List Candle) (b : BState) : BState :=
  if b.position > 0 then
    executeSignal
      ⟨.SELL, (lastD candles).close, (lastD candles).timestamp, 1⟩ b
  else b

/-- `Backtester.backtest` over an arbitrary stateful strategy: reset, run
the loop from the start index, then force-close. -/
def backtestWith (step : σ → List Candle → Signal × σ) (s0 : σ)
    (start : ℕ) (initialBalance : ℚ) (candles : List Candle) : σ × BState :=
  let r := (btIndices start candles.length).foldl (btStep step candles)
    (s0, resetState initialBalance)
  (r.1, forceClose candles r.2)

/-- `strategy.getParameters().longPeriod`: of the six strategies only
`MovingAverageCrossover` has a parameter under the key `longPeriod`
(the combo strategy's key is `maLongPeriod`, MACD's is `slowPeriod`). -/
def getParamLongPeriod : Strat → Option ℕ
  | .mac p => some p.longPeriod
  | _ => none

/-- The simulation start index `strategy.getParameters().longPeriod || 20`;
JS `||` also replaces a present value of 0 by the default 20. -/
def startIndex (s : Strat) : ℕ :=
  match getParamLongPeriod s with
  | some n => if n = 0 then 20 else n
  | none => 20

/-- `Backtester.backtest` for one of the six strategy variants, starting
from a fresh strategy instance. -/
def backtest (s : Strat) (initialBalance : ℚ) (candles : List Candle) :
    StratState × BState :=
  backtestWith s.analyze freshState (startIndex s) initialBalance candles

/-- The BUY entries of a trade ledger. -/
def buyTrades (l : List BTrade) : List BTrade :=
  l.filter (fun t => decide (t.type = SigType.BUY))

/-- The SELL entries of a trade ledger. -/
def sellTrades (l : List BTrade) : List BTrade :=
  l.filter (fun t => decide (t.type = SigType.SELL))

/-- The number of index-paired (i-th BUY, i-th SELL) pairs whose sell price
is strictly greater than the buy price. -/
def winCount (l : List BTrade) : ℕ :=
  (((buyTrades l).zip (sellTrades l)).filter
    (fun bs => decide (bs.2.price > bs.1.price))).length

/-- `BacktestResult` from src/backtesting/Backtester.ts.  The `sharpeRatio`
field is named `sharpe` here for technical reasons; it is the source's
`sharpeRatio` placeholder. -/
structure BacktestResult where
  totalTrades : ℕ
  winningTrades : ℕ
  losingTrades : ℕ
  winRate : ℚ
  totalReturn : ℚ
  maxDrawdown : ℚ
  sharpe : ℚ
  trades : List BTrade
  deriving DecidableEq, Repr

/-- `Backtester.calculateResults`. -/
def calculateResults (initialBalance : ℚ) (st : BState) : BacktestResult :=
  let buys := buyTrades st.trades
  let sells := sellTrades st.trades
  let winning := winCount st.trades
  let losing := min buys.length sells.length - winning
  { totalTrades := buys.length,
    winningTrades := winning,
    losingTrades := losing,
    winRate :=
      if buys.length > 0 then ((winning : ℚ) / (buys.length : ℚ)) * 100 else 0,
    totalReturn :=
      (st.currentBalance - initialBalance) / initialBalance * 100,
    maxDrawdown := (st.maxBalance - st.currentBalance) / st.maxBalance * 100,
    sharpe := 0,
    trades := st.trades }

/-- A complete backtest run: simulate, then compute the metrics. -/
def runBacktest (s : Strat) (initialBalance : ℚ) (candles : List Candle) :
    BacktestResult :=
  calculateResults initialBalance (backtest s initialBalance candles).2

/-- The signed cash flow of one recorded trade: sell proceeds count
positive, buy costs negative (both as quantity × price). -/
def tradeFlow (t : BTrade) : ℚ :=
  if t.type = SigType.SELL then t.price * t.quantity else -(t.price * t.quantity)

/-- Net cash flow of a trade ledger: Σ(sell proceeds) − Σ(buy costs). -/
def netFlow (l : List BTrade) : ℚ := (l.map tradeFlow).sum

/-- The windows fed to the strategy by the `backtest` loop: the growing
slices `candles.slice(0, i + 1)` for each loop index `i`. -/
def loopWindows (candles : List Candle) (start : ℕ) : List (List Candle) :=
  (btIndices start candles.length).map (fun i => candles.take (i + 1))

/-- The signals produced by the strategy during the `backtest` loop. -/
def loopSignals (s : Strat) (candles : List Candle) : List Signal :=
  runTrace s freshState (loopWindows candles (startIndex s))

/-- Folding the executed signals over the backtester state. -/
def applySignals (sigs : List Signal) (b : BState) : BState :=
  sigs.foldl (fun b sig => if shouldExecute sig then executeSignal sig b else b) b

/-- The "fraction of index-paired (i-th BUY, i-th SELL) trade pairs whose
sell price is strictly greater than the buy price", written from the
claim's words (a plain fraction, not a percentage), to compare against the
source's `winRate`. -/
def specWinFraction (trades : List BTrade) : ℚ :=
  (winCount trades : ℚ) /
    ((min (buyTrades trades).length (sellTrades trades).length : ℕ) : ℚ)

/-- Flat candle helper for concrete inputs: open = high = low = close. -/
def flatCandle (ts close volume : ℚ) : Candle :=
  ⟨ts, close, close, close, close, volume⟩

/-- A concrete 5-candle series (closes 100, 100, 100, 110, 120). -/
def candles5 : List Candle :=
  [flatCandle 0 100 50, flatCandle 1 100 50, flatCandle 2 100 50,
   flatCandle 3 110 50, flatCandle 4 120 50]

/-- A concrete crossover parameter set (shortPeriod 2, longPeriod 3). -/
def macP1 : MACParams := ⟨2, 3⟩

/-- Concrete scalping parameters: the source's fallback defaults except a
volatility period of 1 (spread 0.02, volume 1.5, quick profit 0.15%, max
hold 5, min volatility 0.1), giving a short warm-up of 6 candles. -/
def scalpP1 : ScalpParams := ⟨0.02, 1.5, 0.15, 5, 1, 0.1⟩

/-- A concrete 8-candle series for the scalping latch counterexample: flat
at 10000 for 5 candles, then 10010, 10030, 10000, with volume bumps on
candles 5 and 7. -/
def candles8 : List Candle :=
  [flatCandle 0 10000 100, flatCandle 60000 10000 100,
   flatCandle 120000 10000 100, flatCandle 180000 10000 100,
   flatCandle 240000 10000 100, flatCandle 300000 10010 200,
   flatCandle 360000 10030 100, flatCandle 420000 10000 200]

/-- Three growing windows of `candles8` (lengths 6, 7, 8), one per analyze
call of the same scalping instance. -/
def windows8 : List (List Candle) :=
  [candles8.take 6, candles8.take 7, candles8]

/-- Parameter sanity needed for the confidence bounds: only the Bollinger
strategy needs any (a positive SMA period and a nonnegative band-width
multiplier); the other five strategies' confidences are bounded for all
parameters. -/
def stratOK : Strat → Prop
  | .bb p => 0 < p.period ∧ 0 ≤ p.standardDeviations
  | _ => True

instance (s : Strat) : Decidable (stratOK s) := by
  unfold stratOK; cases s <;> infer_instance

/-- The source's default RSI parameters (period 14, oversold 30,
overbought 70). -/
def rsiP0 : RSIParams := ⟨14, 30, 70⟩

/-- A strictly rising 3-candle series (closes 100, 110, 120). -/
def candlesRising : List Candle :=
  [flatCandle 0 100 1, flatCandle 1 110 1, flatCandle 2 120 1]

/-- A 3-candle series whose last close drops (closes 100, 100, 90). -/
def candles3down : List Candle :=
  [flatCandle 0 100 1, flatCandle 1 100 1, flatCandle 2 90 1]

/-- A concrete Bollinger parameter set (period 2, 2 standard deviations). -/
def bbP1 : BBParams := ⟨2, 2⟩

/-- The Backtester's alternation invariant: with no open position the
ledger holds as many SELLs as BUYs; with an open position, exactly one
more BUY. -/
def tradeBalanced (b : BState) : Prop :=
  (b.position = 0 ∧
    (buyTrades b.trades).length = (sellTrades b.trades).length) ∨
  (0 < b.position ∧
    (buyTrades b.trades).length = (sellTrades b.trades).length + 1)

/-! Helper lemmas: constructor (in)equalities as rewrite rules, so that
`simp` and `norm_num` can evaluate the embedded code on concrete inputs. -/

theorem buyEqHoldFalse : (SigType.BUY = SigType.HOLD) = False := eq_false (by decide)

theorem sellEqHoldFalse : (SigType.SELL = SigType.HOLD) = False := eq_false (by decide)

theorem holdEqHoldTrue : (SigType.HOLD = SigType.HOLD) = True := eq_true rfl

theorem buyEqSellFalse : (SigType.BUY = SigType.SELL) = False := eq_false (by decide)

theorem sellEqBuyFalse : (SigType.SELL = SigType.BUY) = False := eq_false (by decide)

theorem buyEqBuyTrue : (SigType.BUY = SigType.BUY) = True := eq_true rfl

theorem sellEqSellTrue : (SigType.SELL = SigType.SELL) = True := eq_true rfl

theorem holdEqBuyFalse : (SigType.HOLD = SigType.BUY) = False := eq_false (by decide)

theorem holdEqSellFalse : (SigType.HOLD = SigType.SELL) = False := eq_false (by decide)

theorem longEqLongTrue : (Side.LONG = Side.LONG) = True := eq_true rfl

theorem shortEqShortTrue : (Side.SHORT = Side.SHORT) = True := eq_true rfl

theorem longEqShortFalse : (Side.LONG = Side.SHORT) = False := eq_false (by decide)

theorem shortEqLongFalse : (Side.SHORT = Side.LONG) = False := eq_false (by decide)

theorem upEqDownFalse : (Dir.UP = Dir.DOWN) = False := eq_false (by decide)

theorem downEqUpFalse : (Dir.DOWN = Dir.UP) = False := eq_false (by decide)

theorem upEqUpTrue : (Dir.UP = Dir.UP) = True := eq_true rfl

theorem downEqDownTrue : (Dir.DOWN = Dir.DOWN) = True := eq_true rfl

theorem neutralEqDownFalse : (Dir.NEUTRAL = Dir.DOWN) = False := eq_false (by decide)

theorem neutralEqUpFalse : (Dir.NEUTRAL = Dir.UP) = False := eq_false (by decide)

theorem sidewaysEqUpFalse : (Dir.SIDEWAYS = Dir.UP) = False := eq_false (by decide)

theorem sidewaysEqDownFalse : (Dir.SIDEWAYS = Dir.DOWN) = False := eq_false (by decide)

/-! Helper lemmas about the list utilities. -/

theorem lastD_mem : ∀ {l : List Candle}, l ≠ [] → lastD l ∈ l
  | [_], _ => by simp [lastD, List.getLastD]
  | a :: b :: t, _ =>
    List.mem_cons_of_mem a (lastD_mem (l := b :: t) (by simp))

theorem sliceLast_subset (l : List α) (p : ℕ) : sliceLast l p ⊆ l := by
  unfold sliceLast
  split
  · exact fun _ h => h
  · exact List.drop_subset _ _

theorem sliceLast_ne_nil {l : List α} {p : ℕ} (hp : p ≠ 0) (hl : l ≠ []) :
    sliceLast l p ≠ [] := by
  unfold sliceLast
  rw [if_neg hp]
  intro hcon
  have hlen := congrArg List.length hcon
  have hl0 : 0 < l.length := List.length_pos.mpr hl
  simp [List.length_drop] at hlen
  omega

theorem sumCloses_pos {l : List Candle} (hne : l ≠ [])
    (hpos : ∀ c ∈ l, 0 < c.close) : 0 < sumCloses l := by
  unfold sumCloses
  apply List.sum_pos
  · intro x hx
    obtain ⟨c, hc, rfl⟩ := List.mem_map.mp hx
    exact hpos c hc
  · simpa using hne

theorem calculateMA_pos {l : List Candle} {p : ℕ} (hp : 0 < p)
    (hlen : p ≤ l.length) (hpos : ∀ c ∈ l, 0 < c.close) :
    0 < calculateMA l p := by
  have hl : l ≠ [] := by
    intro h; subst h; simp at hlen; omega
  unfold calculateMA
  rw [if_neg (by omega)]
  apply div_pos
  · exact sumCloses_pos (sliceLast_ne_nil (by omega) hl)
      (fun c hc => hpos c (sliceLast_subset l p hc))
  · exact_mod_cast hp

/-! Helper lemmas: every strategy's signal carries the last candle's close
as its price. -/

theorem macAnalyze_price (p : MACParams) (last : SigType) (w : List Candle) :
    (macAnalyze p last w).1.price = (lastD w).close := by
  unfold macAnalyze
  dsimp only
  split_ifs <;> rfl

theorem rsiAnalyze_price (p : RSIParams) (last : SigType) (w : List Candle) :
    (rsiAnalyze p last w).1.price = (lastD w).close := by
  unfold rsiAnalyze
  dsimp only
  split_ifs <;> rfl

theorem bbAnalyze_price (p : BBParams) (last : SigType) (w : List Candle) :
    (bbAnalyze p last w).1.price = (lastD w).close := by
  unfold bbAnalyze
  dsimp only
  split_ifs <;> rfl

theorem macdAnalyze_price (p : MACDParams) (last : SigType) (w : List Candle) :
    (macdAnalyze p last w).1.price = (lastD w).close := by
  unfold macdAnalyze
  dsimp only
  split
  · rfl
  · split
    · rfl
    · rfl
    · split_ifs <;> rfl

theorem comboAnalyze_price (p : ComboParams) (last : SigType) (w : List Candle) :
    (comboAnalyze p last w).1.price = (lastD w).close := by
  unfold comboAnalyze
  dsimp only
  split_ifs <;> rfl

theorem scalpExitFor_shape (p : ScalpParams) (candles : List Candle)
    (side : Side) (pos : ScalpPos) (sp : Signal × ℚ)
    (h : scalpExitFor p candles side pos = some sp) :
    sp.1.price = (lastD candles).close ∧
    sp.1.type ≠ SigType.HOLD ∧
    (sp.1.confidence = 0.9 ∨ sp.1.confidence = 0.7 ∨ sp.1.confidence = 0.8) := by
  unfold scalpExitFor at h
  dsimp only at h
  split_ifs at h <;> cases h <;>
    exact ⟨rfl, ⟨(fun hcon => nomatch hcon), by norm_num⟩⟩

theorem scalpExitScan_shape (p : ScalpParams) (candles : List Candle)
    (st : ScalpState) (m : List (Side × ScalpPos)) :
    (scalpExitScan p candles st m).1.price = (lastD candles).close ∧
    (0 ≤ (scalpExitScan p candles st m).1.confidence ∧
      (scalpExitScan p candles st m).1.confidence ≤ 1) := by
  induction m with
  | nil => exact ⟨rfl, by norm_num [scalpExitScan, holdSignal]⟩
  | cons e rest ih =>
    cases e with
    | mk side pos =>
      unfold scalpExitScan
      cases hx : scalpExitFor p candles side pos with
      | none => simpa [hx] using ih
      | some sp =>
        obtain ⟨hp2, _, hc⟩ := scalpExitFor_shape p candles side pos sp hx
        refine ⟨hp2, ?_⟩
        rcases hc with h | h | h <;> rw [h] <;> norm_num

theorem getInstantScalpSignal_price (positions : List (Side × ScalpPos))
    (candles : List Candle) :
    (getInstantScalpSignal positions candles).1.price = (lastD candles).close := by
  unfold getInstantScalpSignal
  dsimp only
  split_ifs <;> rfl

theorem checkEntryConditions_price (p : ScalpParams) (st : ScalpState)
    (candles : List Candle) :
    (checkEntryConditions p st candles).1.price = (lastD candles).close := by
  unfold checkEntryConditions
  dsimp only
  split_ifs with h1 h2 <;>
    first
      | rfl
      | exact getInstantScalpSignal_price st.positions candles

theorem scalpAnalyze_price (p : ScalpParams) (st : ScalpState)
    (candles : List Candle) :
    (scalpAnalyze p st candles).1.price = (lastD candles).close := by
  unfold scalpAnalyze checkExitConditions
  dsimp only
  split_ifs with h1 h2
  · rfl
  · exact (scalpExitScan_shape p candles _ _).1
  · exact checkEntryConditions_price p _ candles

theorem analyze_price (s : Strat) (st : StratState) (w : List Candle) :
    (s.analyze st w).1.price = (lastD w).close := by
  cases s with
  | mac p => exact macAnalyze_price p st.lastSignal w
  | rsi p => exact rsiAnalyze_price p st.lastSignal w
  | bb p => exact bbAnalyze_price p st.lastSignal w
  | macd p => exact macdAnalyze_price p st.lastSignal w
  | combo p => exact comboAnalyze_price p st.lastSignal w
  | scalp p => exact scalpAnalyze_price p ⟨st.positions, st.recentTrades⟩ w

/-- Claim C3: for every strategy and every non-empty window shorter than
that strategy's minimum lookback (longPeriod for the crossover; period+1 for
RSI; period for Bollinger; slowPeriod+signalPeriod+5 for MACD;
max(rsiPeriod, maLongPeriod)+5 for the combo; volatilityPeriod+5 for
scalping), analyze returns type HOLD with confidence 0 and price and
timestamp taken from the last candle of the window. -/
theorem warmup_guard_hold (s : Strat) (st : StratState) (w : List Candle)
    (hne : w ≠ []) (hshort : w.length < minLookback s) :
    s.analyze st w =
      ({ type := SigType.HOLD, price := (lastD w).close,
         timestamp := (lastD w).timestamp, confidence := 0 }, st) := by
  cases s with
  | mac p =>
    simp only [minLookback] at hshort
    simp only [Strat.analyze, macAnalyze, if_pos hshort]
    rfl
  | rsi p =>
    simp only [minLookback] at hshort
    simp only [Strat.analyze, rsiAnalyze, if_pos hshort]
    rfl
  | bb p =>
    simp only [minLookback] at hshort
    simp only [Strat.analyze, bbAnalyze, if_pos hshort]
    rfl
  | macd p =>
    simp only [minLookback] at hshort
    simp only [Strat.analyze, macdAnalyze, if_pos hshort]
    rfl
  | combo p =>
    simp only [minLookback] at hshort
    simp only [Strat.analyze, comboAnalyze, if_pos hshort]
    rfl
  | scalp p =>
    simp only [minLookback] at hshort
    simp only [Strat.analyze, scalpAnalyze, if_pos hshort]
    rfl

/-- Witness for C3: RSIStrategy with the default parameters on a 3-candle
window (below its lookback of 15) holds with confidence 0. -/
theorem warmup_guard_hold_witness :
    (Strat.rsi rsiP0).analyze freshState candlesRising =
      ({ type := SigType.HOLD, price := (lastD candlesRising).close,
         timestamp := (lastD candlesRising).timestamp, confidence := 0 },
       freshState) :=
  warmup_guard_hold (Strat.rsi rsiP0) freshState candlesRising
    (by decide) (by decide)

/-- Claim C4: the Backtester accepts a BUY only if the cash balance exceeds
100 and the position is 0, investing exactly 95% of the balance at the
signal price and keeping 5% as cash; it accepts a SELL only if the position
is positive, liquidating it entirely and raising the high-water mark; any
other combination is a silent no-op leaving balance, position, ledger and
high-water mark unchanged. -/
theorem executeSignal_rules (sig : Signal) (st : BState) :
    (sig.type = SigType.BUY → st.currentBalance > 100 → st.position = 0 →
      executeSignal sig st =
        { currentBalance := st.currentBalance * 0.05,
          position := st.currentBalance * 0.95 / sig.price,
          trades := st.trades ++
            [⟨SigType.BUY, sig.price, sig.timestamp,
              st.currentBalance * 0.95 / sig.price⟩],
          maxBalance := st.maxBalance }) ∧
    (sig.type = SigType.SELL → st.position > 0 →
      executeSignal sig st =
        { currentBalance := st.currentBalance + st.position * sig.price,
          position := 0,
          trades := st.trades ++
            [⟨SigType.SELL, sig.price, sig.timestamp, st.position⟩],
          maxBalance :=
            max st.maxBalance (st.currentBalance + st.position * sig.price) }) ∧
    (¬(sig.type = SigType.BUY ∧ st.currentBalance > 100 ∧ st.position = 0) →
      ¬(sig.type = SigType.SELL ∧ st.position > 0) →
      executeSignal sig st = st) := by
  refine ⟨fun h1 h2 h3 => ?_, fun h1 h2 => ?_, fun h1 h2 => ?_⟩
  · unfold executeSignal
    rw [if_pos ⟨h1, h2, h3⟩]
  · unfold executeSignal
    rw [if_neg (fun hc => by rw [h1] at hc; exact absurd hc.1 (by decide)),
      if_pos ⟨h1, h2⟩]
  · unfold executeSignal
    rw [if_neg h1, if_neg h2]

/-- Witness for C4: a BUY at price 100 with a fresh balance of 10000 buys
95 units and keeps 500 in cash. -/
theorem executeSignal_rules_witness :
    executeSignal ⟨SigType.BUY, 100, 0, 0.9⟩ (resetState 10000) =
      { currentBalance := (10000 : ℚ) * 0.05,
        position := (10000 : ℚ) * 0.95 / 100,
        trades := [⟨SigType.BUY, 100, 0, (10000 : ℚ) * 0.95 / 100⟩],
        maxBalance := 10000 } :=
  (executeSignal_rules ⟨SigType.BUY, 100, 0, 0.9⟩ (resetState 10000)).1
    rfl (by norm_num [resetState]) rfl

/-! Helper lemmas for the RSI bounds. -/

theorem gainsOf_nonneg (l : List ℚ) : 0 ≤ gainsOf l := by
  unfold gainsOf
  apply List.sum_nonneg
  intro x hx
  obtain ⟨c, _, rfl⟩ := List.mem_map.mp hx
  split_ifs with h
  · exact le_of_lt h
  · exact le_refl 0

theorem lossesOf_nonneg (l : List ℚ) : 0 ≤ lossesOf l := by
  unfold lossesOf
  apply List.sum_nonneg
  intro x hx
  obtain ⟨c, _, rfl⟩ := List.mem_map.mp hx
  split_ifs with h
  · exact le_refl 0
  · exact abs_nonneg c

theorem avgGain_nonneg (candles : List Candle) (period : ℕ) :
    0 ≤ avgGain candles period :=
  div_nonneg (gainsOf_nonneg _) (Nat.cast_nonneg period)

theorem avgLoss_nonneg (candles : List Candle) (period : ℕ) :
    0 ≤ avgLoss candles period :=
  div_nonneg (lossesOf_nonneg _) (Nat.cast_nonneg period)

/-- Claim C7: for every window, the RSI computed by
`RSIStrategy.calculateRSI` lies in [0, 100], and it is exactly 100 whenever
the average loss over the trailing period of deltas is 0 (on windows long
enough for the RSI to be computed at all; shorter windows return the
neutral sentinel 50). -/
theorem rsi_bounds (period : ℕ) (candles : List Candle) (hp : 0 < period) :
    (0 ≤ calculateRSI candles period ∧ calculateRSI candles period ≤ 100) ∧
    (period + 1 ≤ candles.length → avgLoss candles period = 0 →
      calculateRSI candles period = 100) := by
  constructor
  · unfold calculateRSI
    split_ifs with h1 h2
    · norm_num
    · norm_num
    · have hg := avgGain_nonneg candles period
      have hl := lt_of_le_of_ne (avgLoss_nonneg candles period) (Ne.symm h2)
      have hrs : 0 ≤ avgGain candles period / avgLoss candles period :=
        div_nonneg hg (le_of_lt hl)
      have hpos : 0 < 100 / (1 + avgGain candles period / avgLoss candles period) :=
        div_pos (by norm_num) (by linarith)
      have hle : 100 / (1 + avgGain candles period / avgLoss candles period) ≤ 100 := by
        rw [div_le_iff (by linarith)]
        nlinarith
      constructor
      · linarith
      · linarith
  · intro hlen hzero
    unfold calculateRSI
    rw [if_neg (by omega), if_pos hzero]

/-- Witness for C7: RSI with period 2 on a strictly rising 3-candle window
has zero average loss and RSI exactly 100 (hence within [0, 100]). -/
theorem rsi_bounds_witness :
    (0 ≤ calculateRSI candlesRising 2 ∧ calculateRSI candlesRising 2 ≤ 100) ∧
    calculateRSI candlesRising 2 = 100 :=
  ⟨(rsi_bounds 2 candlesRising (by norm_num)).1,
   (rsi_bounds 2 candlesRising (by norm_num)).2 (by decide)
     (by norm_num [avgLoss, lossesOf, sliceLast, priceChanges, candlesRising,
       flatCandle])⟩

/-- Claim C10: on a window of positive closes of length exactly longPeriod,
with shortPeriod < longPeriod and a fresh (HOLD) latch, the crossover
strategy's previous-window long moving average is computed on longPeriod−1
candles and hits the sentinel 0, so the golden-cross BUY condition
(prevShortMA ≤ prevLongMA) is unsatisfiable on this first past-warm-up
window, while a SELL fires exactly when shortMA < longMA. -/
theorem mac_first_window_bias (p : MACParams) (w : List Candle)
    (hsp : 0 < p.shortPeriod) (hlt : p.shortPeriod < p.longPeriod)
    (hlen : w.length = p.longPeriod) (hpos : ∀ c ∈ w, 0 < c.close) :
    calculateMA w.dropLast p.longPeriod = 0 ∧
    (macAnalyze p SigType.HOLD w).1.type ≠ SigType.BUY ∧
    ((macAnalyze p SigType.HOLD w).1.type = SigType.SELL ↔
      calculateMA w p.shortPeriod < calculateMA w p.longPeriod) := by
  have hdl : w.dropLast.length = p.longPeriod - 1 := by
    rw [List.length_dropLast, hlen]
  have hma0 : calculateMA w.dropLast p.longPeriod = 0 := by
    unfold calculateMA
    rw [if_pos (by omega)]
  have hprevshort : 0 < calculateMA w.dropLast p.shortPeriod := by
    apply calculateMA_pos hsp (by omega)
    intro c hc
    exact hpos c (List.dropLast_subset w hc)
  refine ⟨hma0, ?_, ?_⟩
  · unfold macAnalyze
    dsimp only
    rw [if_neg (by omega)]
    rw [if_neg (fun hc => by rw [hma0] at hc; linarith [hc.1])]
    split_ifs with h2
    · exact fun hcon => nomatch hcon
    · exact fun hcon => nomatch hcon
  · unfold macAnalyze
    dsimp only
    rw [if_neg (by omega)]
    rw [if_neg (fun hc => by rw [hma0] at hc; linarith [hc.1])]
    by_cases hc : calculateMA w p.shortPeriod < calculateMA w p.longPeriod
    · rw [if_pos ⟨by rw [hma0]; exact le_of_lt hprevshort, hc,
        (fun hcon => nomatch hcon)⟩]
      exact iff_of_true rfl hc
    · rw [if_neg (fun hcon => hc hcon.2.1)]
      exact iff_of_false (fun hcon => nomatch hcon) hc

/-- Witness for C10: the crossover (2, 3) on three candles closing 100,
100, 90 has a zero previous long MA, cannot BUY, and SELLs exactly because
the short MA (95) is below the long MA (290/3 ≈ 96.7). -/
theorem mac_first_window_bias_witness :
    calculateMA candles3down.dropLast macP1.longPeriod = 0 ∧
    (macAnalyze macP1 SigType.HOLD candles3down).1.type ≠ SigType.BUY ∧
    ((macAnalyze macP1 SigType.HOLD candles3down).1.type = SigType.SELL ↔
      calculateMA candles3down macP1.shortPeriod <
        calculateMA candles3down macP1.longPeriod) :=
  mac_first_window_bias macP1 candles3down (by norm_num [macP1])
    (by norm_num [macP1]) (by decide)
    (by norm_num [candles3down, flatCandle])

/-! Helper lemmas for the latch invariant: one per latch strategy, then the
dispatch and the induction along a trace. -/

theorem macAnalyze_latch (p : MACParams) (last : SigType) (w : List Candle) :
    ((macAnalyze p last w).1.type = SigType.HOLD →
      (macAnalyze p last w).2 = last) ∧
    ((macAnalyze p last w).1.type ≠ SigType.HOLD →
      (macAnalyze p last w).1.type ≠ last ∧
      (macAnalyze p last w).2 = (macAnalyze p last w).1.type) := by
  unfold macAnalyze
  dsimp only
  split_ifs with h1 h2 h3
  · exact ⟨(fun _ => rfl), fun h => absurd rfl h⟩
  · exact ⟨(fun h => nomatch h), fun _ => ⟨(fun hq => h2.2.2 hq.symm), rfl⟩⟩
  · exact ⟨(fun h => nomatch h), fun _ => ⟨(fun hq => h3.2.2 hq.symm), rfl⟩⟩
  · exact ⟨(fun _ => rfl), fun h => absurd rfl h⟩

theorem rsiAnalyze_latch (p : RSIParams) (last : SigType) (w : List Candle) :
    ((rsiAnalyze p last w).1.type = SigType.HOLD →
      (rsiAnalyze p last w).2 = last) ∧
    ((rsiAnalyze p last w).1.type ≠ SigType.HOLD →
      (rsiAnalyze p last w).1.type ≠ last ∧
      (rsiAnalyze p last w).2 = (rsiAnalyze p last w).1.type) := by
  unfold rsiAnalyze
  dsimp only
  split_ifs with h1 h2 h3
  · exact ⟨(fun _ => rfl), fun h => absurd rfl h⟩
  · exact ⟨(fun h => nomatch h), fun _ => ⟨(fun hq => h2.2.2 hq.symm), rfl⟩⟩
  · exact ⟨(fun h => nomatch h), fun _ => ⟨(fun hq => h3.2.2 hq.symm), rfl⟩⟩
  · exact ⟨(fun _ => rfl), fun h => absurd rfl h⟩

theorem bbAnalyze_latch (p : BBParams) (last : SigType) (w : List Candle) :
    ((bbAnalyze p last w).1.type = SigType.HOLD →
      (bbAnalyze p last w).2 = last) ∧
    ((bbAnalyze p last w).1.type ≠ SigType.HOLD →
      (bbAnalyze p last w).1.type ≠ last ∧
      (bbAnalyze p last w).2 = (bbAnalyze p last w).1.type) := by
  unfold bbAnalyze
  dsimp only
  split_ifs with h1 h2 h3
  · exact ⟨(fun _ => rfl), fun h => absurd rfl h⟩
  · exact ⟨(fun h => nomatch h), fun _ => ⟨(fun hq => h2.2 hq.symm), rfl⟩⟩
  · exact ⟨(fun h => nomatch h), fun _ => ⟨(fun hq => h3.2 hq.symm), rfl⟩⟩
  · exact ⟨(fun _ => rfl), fun h => absurd rfl h⟩

theorem macdAnalyze_latch (p : MACDParams) (last : SigType) (w : List Candle) :
    ((macdAnalyze p last w).1.type = SigType.HOLD →
      (macdAnalyze p last w).2 = last) ∧
    ((macdAnalyze p last w).1.type ≠ SigType.HOLD →
      (macdAnalyze p last w).1.type ≠ last ∧
      (macdAnalyze p last w).2 = (macdAnalyze p last w).1.type) := by
  unfold macdAnalyze
  dsimp only
  split_ifs with h1
  · exact ⟨(fun _ => rfl), fun h => absurd rfl h⟩
  · split
    · exact ⟨(fun _ => rfl), fun h => absurd rfl h⟩
    · exact ⟨(fun _ => rfl), fun h => absurd rfl h⟩
    · rename_i md pmd hq1 hq2
      by_cases hb : pmd.1 ≤ pmd.2.1 ∧ md.1 > md.2.1 ∧ last ≠ SigType.BUY
      · rw [if_pos hb]
        exact ⟨(fun h => nomatch h), fun _ => ⟨(fun hq => hb.2.2 hq.symm), rfl⟩⟩
      · rw [if_neg hb]
        by_cases hs2 : pmd.1 ≥ pmd.2.1 ∧ md.1 < md.2.1 ∧ last ≠ SigType.SELL
        · rw [if_pos hs2]
          exact ⟨(fun h => nomatch h), fun _ => ⟨(fun hq => hs2.2.2 hq.symm), rfl⟩⟩
        · rw [if_neg hs2]
          exact ⟨(fun _ => rfl), fun h => absurd rfl h⟩

theorem comboAnalyze_latch (p : ComboParams) (last : SigType) (w : List Candle) :
    ((comboAnalyze p last w).1.type = SigType.HOLD →
      (comboAnalyze p last w).2 = last) ∧
    ((comboAnalyze p last w).1.type ≠ SigType.HOLD →
      (comboAnalyze p last w).1.type ≠ last ∧
      (comboAnalyze p last w).2 = (comboAnalyze p last w).1.type) := by
  unfold comboAnalyze
  dsimp only
  split_ifs with h1 h2 h3 h4 h5 h6 h7
  · exact ⟨(fun _ => rfl), fun h => absurd rfl h⟩
  · exact ⟨(fun h => nomatch h), fun _ => ⟨(fun hq => h2.2.2 hq.symm), rfl⟩⟩
  · exact ⟨(fun h => nomatch h), fun _ => ⟨(fun hq => h3.2.2 hq.symm), rfl⟩⟩
  · exact ⟨(fun h => nomatch h), fun _ => ⟨(fun hq => h4.2.2 hq.symm), rfl⟩⟩
  · exact ⟨(fun h => nomatch h), fun _ => ⟨(fun hq => h5.2.2 hq.symm), rfl⟩⟩
  · exact ⟨(fun h => nomatch h), fun _ => ⟨(fun hq => h6.2.2 hq.symm), rfl⟩⟩
  · exact ⟨(fun h => nomatch h), fun _ => ⟨(fun hq => h7.2.2 hq.symm), rfl⟩⟩
  · exact ⟨(fun _ => rfl), fun h => absurd rfl h⟩

theorem analyze_latch (s : Strat) (hs : s.usesLatch = true) (st : StratState)
    (w : List Candle) :
    ((s.analyze st w).1.type = SigType.HOLD →
      (s.analyze st w).2.lastSignal = st.lastSignal) ∧
    ((s.analyze st w).1.type ≠ SigType.HOLD →
      (s.analyze st w).1.type ≠ st.lastSignal ∧
      (s.analyze st w).2.lastSignal = (s.analyze st w).1.type) := by
  cases s with
  | mac p => exact macAnalyze_latch p st.lastSignal w
  | rsi p => exact rsiAnalyze_latch p st.lastSignal w
  | bb p => exact bbAnalyze_latch p st.lastSignal w
  | macd p => exact macdAnalyze_latch p st.lastSignal w
  | combo p => exact comboAnalyze_latch p st.lastSignal w
  | scalp p => exact absurd hs (fun hcon => nomatch hcon)

theorem nonHoldTypes_cons (sig : Signal) (rest : List Signal) :
    nonHoldTypes (sig :: rest) =
      if sig.type = SigType.HOLD then nonHoldTypes rest
      else sig.type :: nonHoldTypes rest := by
  by_cases h : sig.type = SigType.HOLD
  · simp [nonHoldTypes, List.filter_cons, h]
  · simp [nonHoldTypes, List.filter_cons, h]

theorem latch_chain (s : Strat) (hs : s.usesLatch = true) :
    ∀ (ws : List (List Candle)) (st : StratState),
      List.Chain (fun a b => a ≠ b) st.lastSignal
        (nonHoldTypes (runTrace s st ws)) := by
  intro ws
  induction ws with
  | nil =>
    intro st
    exact List.Chain.nil
  | cons w ws ih =>
    intro st
    have hrt : runTrace s st (w :: ws) =
        (s.analyze st w).1 :: runTrace s (s.analyze st w).2 ws := rfl
    rw [hrt, nonHoldTypes_cons]
    by_cases hh : (s.analyze st w).1.type = SigType.HOLD
    · rw [if_pos hh]
      have heq := (analyze_latch s hs st w).1 hh
      have hch := ih (s.analyze st w).2
      rwa [heq] at hch
    · rw [if_neg hh]
      obtain ⟨hne2, hset⟩ := (analyze_latch s hs st w).2 hh
      apply List.Chain.cons (Ne.symm hne2)
      have hch := ih (s.analyze st w).2
      rwa [hset] at hch

theorem chain_imp_chain' {r : SigType → SigType → Prop} {a : SigType}
    {l : List SigType} (h : List.Chain r a l) : List.Chain' r l := by
  cases l with
  | nil => exact trivial
  | cons b t =>
    cases h with
    | cons hr hc => exact hc

/-- Claim C2 (counterexample): the scalping strategy, fed three growing
windows of `candles8`, emits BUY (opening a LONG), SELL (closing it on
quick profit) and then SELL again (opening a SHORT) — two consecutive
non-HOLD signals of the same type with no intervening opposite signal. -/
theorem scalp_consecutive_sells :
    nonHoldTypes (runTrace (Strat.scalp scalpP1) freshState windows8) =
      [SigType.BUY, SigType.SELL, SigType.SELL] ∧
    ¬ List.Chain' (fun a b => a ≠ b)
        (nonHoldTypes (runTrace (Strat.scalp scalpP1) freshState windows8)) := by
  have h : nonHoldTypes (runTrace (Strat.scalp scalpP1) freshState windows8) =
      [SigType.BUY, SigType.SELL, SigType.SELL] := by
    norm_num [runTrace, runTraceWith, windows8, candles8, flatCandle,
      Strat.analyze, scalpAnalyze, scalpP1, freshState, checkExitConditions,
      scalpExitScan, scalpExitFor, checkEntryConditions, getInstantScalpSignal,
      updatePositions, cleanOldTrades, calculateMomentum, analyzePriceAction,
      checkVolumeSpike, calculateAverageVolume, sliceLast, priceChanges,
      nthFromEnd, lastD, holdSignal, qsign, mapSet, mapDelete, nonHoldTypes,
      sumVolumes, defaultCandle, List.filter, abs_of_pos, abs_of_nonneg,
      abs_of_nonpos, buyEqHoldFalse, sellEqHoldFalse, holdEqHoldTrue,
      buyEqSellFalse, sellEqBuyFalse, buyEqBuyTrue, sellEqSellTrue,
      holdEqBuyFalse, holdEqSellFalse, longEqLongTrue, shortEqShortTrue,
      longEqShortFalse, shortEqLongFalse, upEqDownFalse, downEqUpFalse,
      upEqUpTrue, downEqDownTrue, neutralEqDownFalse, neutralEqUpFalse,
      sidewaysEqUpFalse, sidewaysEqDownFalse]
  refine ⟨h, ?_⟩
  rw [h]
  intro hc
  exact (List.chain'_cons.mp (List.chain'_cons.mp hc).2).1 rfl

/-- Claim C2 (amended): for the five latch-based strategies (crossover,
RSI, Bollinger, MACD, combo) — though not for the scalping strategy — two
consecutive non-HOLD signals of the same type never occur without an
intervening signal of the opposite type, over any sequence of analyze
calls on a fresh instance. -/
theorem latch_alternation (s : Strat) (hs : s.usesLatch = true)
    (ws : List (List Candle)) :
    List.Chain' (fun a b => a ≠ b) (nonHoldTypes (runTrace s freshState ws)) :=
  chain_imp_chain' (latch_chain s hs ws freshState)

/-- Witness for C2 (amended): the RSI strategy run over the `windows8`
window sequence satisfies the alternation invariant. -/
theorem latch_alternation_witness :
    List.Chain' (fun a b => a ≠ b)
      (nonHoldTypes (runTrace (Strat.rsi rsiP0) freshState windows8)) :=
  latch_alternation (Strat.rsi rsiP0) rfl windows8

/-! Helper lemmas for the confidence bounds: one per strategy. -/

theorem ratSqrt_nonneg (q : ℚ) : 0 ≤ ratSqrt q :=
  div_nonneg (Nat.cast_nonneg _) (Nat.cast_nonneg _)

theorem macAnalyze_conf (p : MACParams) (last : SigType) (w : List Candle) :
    0 ≤ (macAnalyze p last w).1.confidence ∧
    (macAnalyze p last w).1.confidence ≤ 1 := by
  unfold macAnalyze
  dsimp only
  split_ifs with h1 h2 h3
  · norm_num [holdSignal]
  · exact ⟨le_trans (by norm_num) (le_max_left _ _),
      max_le (by norm_num) (le_trans (min_le_left _ _) (by norm_num))⟩
  · exact ⟨le_trans (by norm_num) (le_max_left _ _),
      max_le (by norm_num) (le_trans (min_le_left _ _) (by norm_num))⟩
  · norm_num [holdSignal]

theorem rsiAnalyze_conf (p : RSIParams) (last : SigType) (w : List Candle) :
    0 ≤ (rsiAnalyze p last w).1.confidence ∧
    (rsiAnalyze p last w).1.confidence ≤ 1 := by
  unfold rsiAnalyze
  dsimp only
  split_ifs with h1 h2 h3
  · norm_num [holdSignal]
  · have hminle : min (calculateRSI w.dropLast p.period) 20 ≤
        p.oversoldThreshold := by
      rcases le_total (calculateRSI w.dropLast p.period) 20 with hle | hle
      · rw [min_eq_left hle]; exact h2.1
      · rw [min_eq_right hle]; linarith [h2.1]
    exact ⟨le_min (by norm_num) (div_nonneg (by linarith) (by norm_num)),
      le_trans (min_le_left _ _) (by norm_num)⟩
  · have hmaxge : p.overboughtThreshold ≤
        max (calculateRSI w.dropLast p.period) 80 := by
      rcases le_total (calculateRSI w.dropLast p.period) 80 with hle | hle
      · rw [max_eq_right hle]; linarith [h3.1]
      · rw [max_eq_left hle]; exact h3.1
    exact ⟨le_min (by norm_num) (div_nonneg (by linarith) (by norm_num)),
      le_trans (min_le_left _ _) (by norm_num)⟩
  · norm_num [holdSignal]

theorem bb_middle_pos (p : BBParams) (w : List Candle) (hne : w ≠ [])
    (hpos : ∀ c ∈ w, 0 < c.close) (hpp : 0 < p.period) :
    0 < (calculateBollingerBands p w).2.2 := by
  unfold calculateBollingerBands
  dsimp only
  apply div_pos
  · exact sumCloses_pos (sliceLast_ne_nil (by omega) hne)
      (fun c hc => hpos c (sliceLast_subset w p.period hc))
  · exact_mod_cast hpp

theorem bb_middle_le_upper (p : BBParams) (w : List Candle)
    (hk : 0 ≤ p.standardDeviations) :
    (calculateBollingerBands p w).2.2 ≤ (calculateBollingerBands p w).1 := by
  unfold calculateBollingerBands
  dsimp only
  exact le_add_of_nonneg_right (mul_nonneg (ratSqrt_nonneg _) hk)

theorem bbAnalyze_conf (p : BBParams) (last : SigType) (w : List Candle)
    (hne : w ≠ []) (hpos : ∀ c ∈ w, 0 < c.close)
    (hpp : 0 < p.period) (hk : 0 ≤ p.standardDeviations) :
    0 ≤ (bbAnalyze p last w).1.confidence ∧
    (bbAnalyze p last w).1.confidence ≤ 1 := by
  have hprice : 0 < (lastD w).close := hpos _ (lastD_mem hne)
  have hmid := bb_middle_pos p w hne hpos hpp
  have hup := bb_middle_le_upper p w hk
  unfold bbAnalyze
  dsimp only
  split_ifs with h1 h2 h3
  · norm_num [holdSignal]
  · have hlb : (lastD w).close ≤ (calculateBollingerBands p w).2.1 := h2.1
    have hlbpos : 0 < (calculateBollingerBands p w).2.1 :=
      lt_of_lt_of_le hprice hlb
    refine ⟨le_min (by norm_num) ?_, le_trans (min_le_left _ _) (by norm_num)⟩
    exact mul_nonneg (div_nonneg (by linarith) (le_of_lt hlbpos)) (by norm_num)
  · have hub : (calculateBollingerBands p w).1 ≤ (lastD w).close := h3.1
    have hubpos : 0 < (calculateBollingerBands p w).1 :=
      lt_of_lt_of_le hmid hup
    refine ⟨le_min (by norm_num) ?_, le_trans (min_le_left _ _) (by norm_num)⟩
    exact mul_nonneg (div_nonneg (by linarith) (le_of_lt hubpos)) (by norm_num)
  · norm_num [holdSignal]

theorem macdAnalyze_conf (p : MACDParams) (last : SigType) (w : List Candle) :
    0 ≤ (macdAnalyze p last w).1.confidence ∧
    (macdAnalyze p last w).1.confidence ≤ 1 := by
  unfold macdAnalyze
  dsimp only
  split_ifs with h1
  · norm_num [holdSignal]
  · split
    · norm_num [holdSignal]
    · norm_num [holdSignal]
    · split_ifs <;> norm_num [holdSignal]

theorem comboAnalyze_conf (p : ComboParams) (last : SigType) (w : List Candle) :
    0 ≤ (comboAnalyze p last w).1.confidence ∧
    (comboAnalyze p last w).1.confidence ≤ 1 := by
  unfold comboAnalyze
  dsimp only
  split_ifs <;> norm_num [holdSignal]

theorem getInstantScalpSignal_conf (positions : List (Side × ScalpPos))
    (candles : List Candle) :
    0 ≤ (getInstantScalpSignal positions candles).1.confidence ∧
    (getInstantScalpSignal positions candles).1.confidence ≤ 1 := by
  unfold getInstantScalpSignal
  dsimp only
  split_ifs <;> norm_num [holdSignal]

theorem checkEntryConditions_conf (p : ScalpParams) (st : ScalpState)
    (candles : List Candle) :
    0 ≤ (checkEntryConditions p st candles).1.confidence ∧
    (checkEntryConditions p st candles).1.confidence ≤ 1 := by
  unfold checkEntryConditions
  dsimp only
  split_ifs <;>
    first
      | exact getInstantScalpSignal_conf st.positions candles
      | norm_num [holdSignal]

theorem scalpAnalyze_conf (p : ScalpParams) (st : ScalpState)
    (candles : List Candle) :
    0 ≤ (scalpAnalyze p st candles).1.confidence ∧
    (scalpAnalyze p st candles).1.confidence ≤ 1 := by
  unfold scalpAnalyze checkExitConditions
  dsimp only
  split_ifs with h1 h2
  · norm_num [holdSignal]
  · exact (scalpExitScan_shape p candles _ _).2
  · exact checkEntryConditions_conf p _ candles

/-- Claim C8: for every non-empty window accepted by any of the six
strategies, the returned Signal's confidence lies in the closed interval
[0, 1] (for the Bollinger strategy, under its natural parameter sanity:
positive period and nonnegative standard-deviation multiplier). -/
theorem confidence_unit_interval (s : Strat) (st : StratState)
    (w : List Candle) (hne : w ≠ []) (hpos : ∀ c ∈ w, 0 < c.close)
    (hok : stratOK s) :
    0 ≤ (s.analyze st w).1.confidence ∧
    (s.analyze st w).1.confidence ≤ 1 := by
  cases s with
  | mac p => exact macAnalyze_conf p st.lastSignal w
  | rsi p => exact rsiAnalyze_conf p st.lastSignal w
  | bb p => exact bbAnalyze_conf p st.lastSignal w hne hpos hok.1 hok.2
  | macd p => exact macdAnalyze_conf p st.lastSignal w
  | combo p => exact comboAnalyze_conf p st.lastSignal w
  | scalp p => exact scalpAnalyze_conf p ⟨st.positions, st.recentTrades⟩ w

/-- Witness for C8: the Bollinger strategy (period 2, k = 2) on the rising
3-candle window returns a confidence within [0, 1]. -/
theorem confidence_unit_interval_witness :
    0 ≤ ((Strat.bb bbP1).analyze freshState candlesRising).1.confidence ∧
    ((Strat.bb bbP1).analyze freshState candlesRising).1.confidence ≤ 1 :=
  confidence_unit_interval (Strat.bb bbP1) freshState candlesRising
    (by decide) (by norm_num [candlesRising, flatCandle])
    (by norm_num [stratOK, bbP1])

/-! Helper lemmas: the backtest loop equals a phase-split run (signal trace
first, then executions), and the executeSignal invariants. -/

theorem applySignals_cons (sig : Signal) (sigs : List Signal) (b : BState) :
    applySignals (sig :: sigs) b =
      applySignals sigs
        (if shouldExecute sig then executeSignal sig b else b) := rfl

theorem btStep_fold (step : σ → List Candle → Signal × σ) :
    ∀ (idxs : List ℕ) (candles : List Candle) (s0 : σ) (b0 : BState),
      (idxs.foldl (btStep step candles) (s0, b0)).2 =
        applySignals
          (runTraceWith step s0 (idxs.map (fun i => candles.take (i + 1)))) b0 := by
  intro idxs
  induction idxs with
  | nil => intro candles s0 b0; rfl
  | cons i idxs ih =>
    intro candles s0 b0
    rw [List.foldl_cons, List.map_cons]
    rw [ih]
    rfl

theorem backtest_run_eq (s : Strat) (init : ℚ) (candles : List Candle) :
    (backtest s init candles).2 =
      forceClose candles
        (applySignals (loopSignals s candles) (resetState init)) := by
  unfold backtest backtestWith loopSignals runTrace loopWindows
  dsimp only
  rw [btStep_fold]

theorem applySignals_eq_filter :
    ∀ (sigs : List Signal) (b : BState),
      applySignals sigs b =
        (sigs.filter shouldExecute).foldl
          (fun b sig => executeSignal sig b) b := by
  intro sigs
  induction sigs with
  | nil => intro b; rfl
  | cons sig sigs ih =>
    intro b
    rw [List.filter_cons, applySignals_cons]
    by_cases h : shouldExecute sig
    · rw [if_pos h, if_pos (by simpa using h), List.foldl_cons, ih]
    · rw [if_neg h, if_neg (by simpa using h), ih]

theorem netFlow_append (l1 l2 : List BTrade) :
    netFlow (l1 ++ l2) = netFlow l1 + netFlow l2 := by
  unfold netFlow
  rw [List.map_append, List.sum_append]

theorem executeSignal_netFlow (sig : Signal) (b : BState) (hp : 0 < sig.price) :
    (executeSignal sig b).currentBalance -
        netFlow (executeSignal sig b).trades =
      b.currentBalance - netFlow b.trades := by
  unfold executeSignal
  split_ifs with h1 h2
  · dsimp only
    rw [netFlow_append]
    have hq : sig.price * (b.currentBalance * 0.95 / sig.price) =
        b.currentBalance * 0.95 := by
      field_simp
    have hflow : netFlow [⟨SigType.BUY, sig.price, sig.timestamp,
        b.currentBalance * 0.95 / sig.price⟩] =
        -(b.currentBalance * 0.95) := by
      unfold netFlow tradeFlow
      simp only [List.map_cons, List.map_nil, List.sum_cons, List.sum_nil,
        add_zero]
      rw [if_neg (fun hcon => nomatch hcon)]
      rw [hq]
    rw [hflow]
    ring
  · dsimp only
    rw [netFlow_append]
    have hflow : netFlow [⟨SigType.SELL, sig.price, sig.timestamp,
        b.position⟩] = sig.price * b.position := by
      unfold netFlow tradeFlow
      simp only [List.map_cons, List.map_nil, List.sum_cons, List.sum_nil,
        add_zero]
      rw [if_pos trivial]
    rw [hflow]
    ring
  · rfl

theorem buyTrades_append (l1 l2 : List BTrade) :
    buyTrades (l1 ++ l2) = buyTrades l1 ++ buyTrades l2 := by
  unfold buyTrades
  rw [List.filter_append]

theorem sellTrades_append (l1 l2 : List BTrade) :
    sellTrades (l1 ++ l2) = sellTrades l1 ++ sellTrades l2 := by
  unfold sellTrades
  rw [List.filter_append]

theorem executeSignal_balanced (sig : Signal) (b : BState)
    (hp : 0 < sig.price) (hinv : tradeBalanced b) :
    tradeBalanced (executeSignal sig b) := by
  unfold executeSignal
  split_ifs with h1 h2
  · right
    dsimp only
    have hbal : (0 : ℚ) < b.currentBalance := lt_trans (by norm_num) h1.2.1
    constructor
    · exact div_pos (mul_pos hbal (by norm_num)) hp
    · rw [buyTrades_append, sellTrades_append, List.length_append,
        List.length_append]
      have hb1 : (buyTrades [⟨SigType.BUY, sig.price, sig.timestamp,
          b.currentBalance * 0.95 / sig.price⟩]).length = 1 := rfl
      have hs1 : (sellTrades [⟨SigType.BUY, sig.price, sig.timestamp,
          b.currentBalance * 0.95 / sig.price⟩]).length = 0 := rfl
      rw [hb1, hs1]
      rcases hinv with ⟨_, hc⟩ | ⟨hppos, _⟩
      · omega
      · exact absurd h1.2.2 (ne_of_gt hppos)
  · left
    dsimp only
    refine ⟨rfl, ?_⟩
    rw [buyTrades_append, sellTrades_append, List.length_append,
      List.length_append]
    have hb1 : (buyTrades [⟨SigType.SELL, sig.price, sig.timestamp,
        b.position⟩]).length = 0 := rfl
    have hs1 : (sellTrades [⟨SigType.SELL, sig.price, sig.timestamp,
        b.position⟩]).length = 1 := rfl
    rw [hb1, hs1]
    rcases hinv with ⟨hp0, _⟩ | ⟨_, hc⟩
    · exact absurd hp0 (ne_of_gt h2.2)
    · omega
  · exact hinv

theorem applySignals_inv :
    ∀ (sigs : List Signal) (b : BState),
      (∀ sig ∈ sigs, 0 < sig.price) → tradeBalanced b →
      ((applySignals sigs b).currentBalance -
          netFlow (applySignals sigs b).trades =
        b.currentBalance - netFlow b.trades) ∧
      tradeBalanced (applySignals sigs b) := by
  intro sigs
  induction sigs with
  | nil => intro b _ hb; exact ⟨rfl, hb⟩
  | cons sig sigs ih =>
    intro b hp hb
    rw [applySignals_cons]
    by_cases hx : shouldExecute sig
    · rw [if_pos hx]
      have hps : 0 < sig.price := hp sig (List.mem_cons_self _ _)
      have h1 := executeSignal_netFlow sig b hps
      have h2 := executeSignal_balanced sig b hps hb
      obtain ⟨ha, hbal⟩ := ih (executeSignal sig b)
        (fun s2 hs2 => hp s2 (List.mem_cons_of_mem _ hs2)) h2
      exact ⟨by rw [ha, h1], hbal⟩
    · rw [if_neg hx]
      exact ih b (fun s2 hs2 => hp s2 (List.mem_cons_of_mem _ hs2)) hb

theorem forceClose_props (candles : List Candle) (b : BState)
    (hb : tradeBalanced b) :
    (forceClose candles b).position = 0 ∧
    ((forceClose candles b).currentBalance -
        netFlow (forceClose candles b).trades =
      b.currentBalance - netFlow b.trades) ∧
    (buyTrades (forceClose candles b).trades).length =
      (sellTrades (forceClose candles b).trades).length := by
  unfold forceClose
  split_ifs with h1
  · have hsell : executeSignal
        ⟨SigType.SELL, (lastD candles).close, (lastD candles).timestamp, 1⟩ b =
        { currentBalance := b.currentBalance +
            b.position * (lastD candles).close,
          position := 0,
          trades := b.trades ++ [⟨SigType.SELL, (lastD candles).close,
            (lastD candles).timestamp, b.position⟩],
          maxBalance := max b.maxBalance (b.currentBalance +
            b.position * (lastD candles).close) } := by
      unfold executeSignal
      rw [if_neg (fun hc => nomatch hc.1), if_pos ⟨rfl, h1⟩]
    rw [hsell]
    refine ⟨rfl, ?_, ?_⟩
    · dsimp only
      rw [netFlow_append]
      have hflow : netFlow [⟨SigType.SELL, (lastD candles).close,
          (lastD candles).timestamp, b.position⟩] =
          (lastD candles).close * b.position := by
        unfold netFlow tradeFlow
        simp only [List.map_cons, List.map_nil, List.sum_cons, List.sum_nil,
          add_zero]
        rw [if_pos trivial]
      rw [hflow]
      ring
    · dsimp only
      rw [buyTrades_append, sellTrades_append, List.length_append,
        List.length_append]
      have hb1 : (buyTrades [⟨SigType.SELL, (lastD candles).close,
          (lastD candles).timestamp, b.position⟩]).length = 0 := rfl
      have hs1 : (sellTrades [⟨SigType.SELL, (lastD candles).close,
          (lastD candles).timestamp, b.position⟩]).length = 1 := rfl
      rw [hb1, hs1]
      rcases hb with ⟨hp0, _⟩ | ⟨_, hc⟩
      · exact absurd hp0 (ne_of_gt h1)
      · omega
  · rcases hb with ⟨hp0, hc⟩ | ⟨hpp, _⟩
    · exact ⟨hp0, rfl, hc⟩
    · exact absurd hpp h1

theorem runTrace_price :
    ∀ (ws : List (List Candle)) (s : Strat) (st : StratState) (sig : Signal),
      sig ∈ runTrace s st ws → ∃ w ∈ ws, sig.price = (lastD w).close := by
  intro ws
  induction ws with
  | nil =>
    intro s st sig h
    exact absurd h (List.not_mem_nil sig)
  | cons w ws ih =>
    intro s st sig h
    rcases List.mem_cons.mp h with h | h
    · exact ⟨w, List.mem_cons_self _ _, by rw [h]; exact analyze_price s st w⟩
    · obtain ⟨w2, hw2, he⟩ := ih s (s.analyze st w).2 sig h
      exact ⟨w2, List.mem_cons_of_mem _ hw2, he⟩

theorem loopSignals_price_pos (s : Strat) (candles : List Candle)
    (hne : candles ≠ []) (hpos : ∀ c ∈ candles, 0 < c.close) :
    ∀ sig ∈ loopSignals s candles, 0 < sig.price := by
  intro sig hs
  obtain ⟨w, hw, he⟩ := runTrace_price _ s freshState sig hs
  obtain ⟨i, _, rfl⟩ := List.mem_map.mp (by simpa [loopWindows] using hw)
  have hwne : candles.take (i + 1) ≠ [] := by
    intro hcon
    rcases List.take_eq_nil_iff.mp hcon with h | h
    · omega
    · exact hne h
  rw [he]
  exact hpos _ (List.take_subset _ _ (lastD_mem hwne))

/-- Claim C6: the backtest loop starts at the strategy's parameter named
`longPeriod` when the strategy exposes one (JS `||` falls back to 20 also
when that parameter is 0) and at the flat default 20 otherwise; at each
index i from start to the end it feeds the strategy the prefix
candles[0..i] and executes the returned signal iff its type is not HOLD
and its confidence exceeds 0.1. -/
theorem backtest_start_and_execution (s : Strat) (init : ℚ)
    (candles : List Candle) :
    (∀ p, s = Strat.mac p → p.longPeriod ≠ 0 → startIndex s = p.longPeriod) ∧
    (getParamLongPeriod s = none → startIndex s = 20) ∧
    (backtest s init candles).2 =
      forceClose candles
        (((loopSignals s candles).filter shouldExecute).foldl
          (fun b sig => executeSignal sig b) (resetState init)) := by
  refine ⟨?_, ?_, ?_⟩
  · intro p hs hnz
    subst hs
    simp [startIndex, getParamLongPeriod, hnz]
  · intro hn
    simp [startIndex, hn]
  · rw [backtest_run_eq, applySignals_eq_filter]

/-- Witness for C6: the crossover (2, 3) starts at index 3 and its backtest
over `candles5` is the filtered fold of its loop signals. -/
theorem backtest_start_and_execution_witness :
    startIndex (Strat.mac macP1) = macP1.longPeriod ∧
    (backtest (Strat.mac macP1) 10000 candles5).2 =
      forceClose candles5
        (((loopSignals (Strat.mac macP1) candles5).filter shouldExecute).foldl
          (fun b sig => executeSignal sig b) (resetState 10000)) :=
  ⟨(backtest_start_and_execution (Strat.mac macP1) 10000 candles5).1 macP1 rfl
      (by norm_num [macP1]),
   (backtest_start_and_execution (Strat.mac macP1) 10000 candles5).2.2⟩

/-- Claim C1: for every strategy and non-empty candle series (of positive
closes), the final balance equals the initial balance plus the net flow of
the recorded trades — Σ(sell quantity × price) − Σ(buy quantity × price),
each buy cost being exactly the 95% of balance invested — and the simulated
position is exactly 0 after the forced liquidation at the last close. -/
theorem backtest_conservation (s : Strat) (init : ℚ) (candles : List Candle)
    (hne : candles ≠ []) (hpos : ∀ c ∈ candles, 0 < c.close) :
    (backtest s init candles).2.currentBalance =
      init + netFlow (backtest s init candles).2.trades ∧
    (backtest s init candles).2.position = 0 := by
  have hsigs := loopSignals_price_pos s candles hne hpos
  have hib : tradeBalanced (resetState init) := Or.inl ⟨rfl, rfl⟩
  obtain ⟨hflow, hbal⟩ :=
    applySignals_inv (loopSignals s candles) (resetState init) hsigs hib
  obtain ⟨hp0, hfc, _⟩ :=
    forceClose_props candles (applySignals (loopSignals s candles)
      (resetState init)) hbal
  rw [backtest_run_eq]
  refine ⟨?_, hp0⟩
  have hz : netFlow (resetState init).trades = 0 := rfl
  rw [hz] at hflow
  have hcomb := hfc.trans hflow
  have hri : (resetState init).currentBalance = init := rfl
  rw [hri] at hcomb
  linarith [hcomb]

/-- Witness for C1: the crossover (2, 3) backtested over `candles5` with an
initial balance of 10000 conserves value and ends flat. -/
theorem backtest_conservation_witness :
    (backtest (Strat.mac macP1) 10000 candles5).2.currentBalance =
      10000 + netFlow (backtest (Strat.mac macP1) 10000 candles5).2.trades ∧
    (backtest (Strat.mac macP1) 10000 candles5).2.position = 0 :=
  backtest_conservation (Strat.mac macP1) 10000 candles5 (by decide)
    (by norm_num [candles5, flatCandle])

/-- Claim C9: two fresh instances of the same strategy and parameters fed
the identical sequence of windows produce identical signal sequences. -/
theorem strategy_determinism (s : Strat) (st1 st2 : StratState)
    (h1 : st1 = freshState) (h2 : st2 = freshState)
    (ws : List (List Candle)) :
    runTrace s st1 ws = runTrace s st2 ws := by
  subst h1
  subst h2
  rfl

/-- Witness for C9: two fresh scalping instances agree on `windows8`. -/
theorem strategy_determinism_witness :
    runTrace (Strat.scalp scalpP1) freshState windows8 =
      runTrace (Strat.scalp scalpP1) freshState windows8 :=
  strategy_determinism (Strat.scalp scalpP1) freshState freshState rfl rfl
    windows8

/-- Claim C5 (counterexample): the source computes `winRate` as a
percentage, not a fraction.  In the completed backtest of the crossover
(2, 3) over `candles5` with initial balance 10000, the single (BUY 110,
SELL 120) pair wins, so the fraction of winning index-paired trades is 1,
but the returned winRate is 100. -/
theorem winRate_not_fraction :
    (runBacktest (Strat.mac macP1) 10000 candles5).winRate ≠
      specWinFraction (backtest (Strat.mac macP1) 10000 candles5).2.trades := by
  have heval : (runBacktest (Strat.mac macP1) 10000 candles5).winRate = 100 ∧
      specWinFraction (backtest (Strat.mac macP1) 10000 candles5).2.trades = 1 := by
    constructor <;>
    norm_num [runBacktest, calculateResults, backtest, backtestWith, btIndices,
      btStep, startIndex, getParamLongPeriod, macP1, candles5, flatCandle,
      Strat.analyze, macAnalyze, calculateMA, sumCloses, sliceLast, lastD,
      holdSignal, shouldExecute, executeSignal, forceClose, resetState,
      freshState, buyTrades, sellTrades, winCount, specWinFraction,
      List.range', List.filter, defaultCandle, List.getLastD,
      abs_of_pos, abs_of_nonneg, abs_of_nonpos, decide_eq_true_eq,
      buyEqHoldFalse, sellEqHoldFalse, holdEqHoldTrue, buyEqSellFalse,
      sellEqBuyFalse, buyEqBuyTrue, sellEqSellTrue, holdEqBuyFalse,
      holdEqSellFalse]
  rw [heval.1, heval.2]
  norm_num

/-- Claim C5 (amended): for every completed backtest (non-empty series of
positive closes), totalTrades counts the BUY trades, winRate equals 100 ×
the fraction of index-paired (i-th BUY, i-th SELL) pairs whose sell price
strictly exceeds the buy price, totalReturn and maxDrawdown follow their
stated formulas (peak tracked only at SELL events), and sharpeRatio is
always 0. -/
theorem calculateResults_metrics (s : Strat) (init : ℚ)
    (candles : List Candle) (hne : candles ≠ [])
    (hpos : ∀ c ∈ candles, 0 < c.close) :
    (runBacktest s init candles).totalTrades =
      (buyTrades (backtest s init candles).2.trades).length ∧
    (runBacktest s init candles).winRate =
      100 * specWinFraction (backtest s init candles).2.trades ∧
    (runBacktest s init candles).totalReturn =
      ((backtest s init candles).2.currentBalance - init) / init * 100 ∧
    (runBacktest s init candles).maxDrawdown =
      ((backtest s init candles).2.maxBalance -
          (backtest s init candles).2.currentBalance) /
        (backtest s init candles).2.maxBalance * 100 ∧
    (runBacktest s init candles).sharpe = 0 := by
  have hco : (buyTrades (backtest s init candles).2.trades).length =
      (sellTrades (backtest s init candles).2.trades).length := by
    have hsigs := loopSignals_price_pos s candles hne hpos
    have hib : tradeBalanced (resetState init) := Or.inl ⟨rfl, rfl⟩
    obtain ⟨_, hbal⟩ :=
      applySignals_inv (loopSignals s candles) (resetState init) hsigs hib
    have hcnt := (forceClose_props candles
      (applySignals (loopSignals s candles) (resetState init)) hbal).2.2
    rwa [← backtest_run_eq] at hcnt
  refine ⟨rfl, ?_, rfl, rfl, rfl⟩
  unfold runBacktest calculateResults specWinFraction
  dsimp only
  rw [← hco, min_self]
  by_cases hb : 0 < (buyTrades (backtest s init candles).2.trades).length
  · rw [if_pos hb]
    ring
  · rw [if_neg hb]
    have hbl : (buyTrades (backtest s init candles).2.trades).length = 0 := by
      omega
    rw [hbl]
    norm_num

/-- Witness for C5 (amended): in the crossover (2, 3) backtest over
`candles5`, winRate equals 100 × the winning-pair fraction. -/
theorem calculateResults_metrics_witness :
    (runBacktest (Strat.mac macP1) 10000 candles5).winRate =
      100 * specWinFraction (backtest (Strat.mac macP1) 10000 candles5).2.trades :=
  (calculateResults_metrics (Strat.mac macP1) 10000 candles5 (by decide)
    (by norm_num [candles5, flatCandle])).2.1

end CryptoBot
